import Mathlib

/-!
Shallow embedding of `docs-downloader.js` from the repository
`redhat-docs-downloader`, together with theorems settling the frozen
claims about its specification.

Modelling conventions, used throughout:
* asynchronous fallible actions become pure functions returning
  `Except String` values (the `String` is the thrown error message);
* the retried action of `withRetry` is a function of the attempt index,
  so that an action may fail on some attempts and succeed on others;
* wall-clock waiting is modelled by accumulating the requested delay in
  milliseconds as a natural number;
* the filesystem seen by the downloader is an association list from
  paths to byte lists (a later write shadows an earlier one on lookup);
* per-book browser work (navigation, PDF location) is abstracted by the
  outcome it produces, namely either a thrown error message or a located
  PDF URL together with the HTTP responses the download attempts see.

Each definition carries a comment pointing at the source lines of
`docs-downloader.js` that it embeds.
-/

namespace DocsDownloader

/-- Source line 11: `const MAX_RETRIES = 1`. -/
def MAX_RETRIES : Nat := 1

/-- Source line 26: the backoff delay before the next retry is
`Math.min(1000 * Math.pow(2, attempt), 10000)` milliseconds. -/
def backoffDelay (attempt : Nat) : Nat := min (1000 * 2 ^ attempt) 10000

/-- Total backoff delay accumulated over `k` consecutive failed attempts
whose first attempt index is `a` (the loop waits `backoffDelay attempt`
after every failed attempt that still has a retry left). -/
def totalBackoff : Nat → Nat → Nat
  | _, 0 => 0
  | a, k + 1 => backoffDelay a + totalBackoff (a + 1) k

/-- Source lines 14-33, the body of `withRetry` re-expressed structurally:
the loop `for (attempt = 0; attempt <= retryCount; attempt++)` becomes a
recursion in which `left` counts the attempts still allowed after the
current one, so `left = retryCount - attempt` along the real loop.  The
value returned is the loop result (first success, or the aggregate error
built at line 32) together with the number of invocations of `actionFn`
and the total backoff delay waited (line 26-28). -/
def runAttempts {α : Type} (actionFn : Nat → Except String α) (actionName : String) :
    Nat → Nat → Except String α × Nat × Nat
  | attempt, 0 =>
    match actionFn attempt with
    | .ok v => (.ok v, 1, 0)
    | .error e =>
      (.error ("All " ++ toString (attempt + 1) ++ " attempts failed for "
        ++ actionName ++ ": " ++ e), 1, 0)
  | attempt, left + 1 =>
    match actionFn attempt with
    | .ok v => (.ok v, 1, 0)
    | .error _ =>
      let out := runAttempts actionFn actionName (attempt + 1) left
      (out.1, out.2.1 + 1, out.2.2 + backoffDelay attempt)

/-- Source lines 14-33: `withRetry(actionFn, actionName, retryCount)`.
Returns the result together with the number of invocations of `actionFn`
and the total backoff delay waited in milliseconds. -/
def withRetry {α : Type} (actionFn : Nat → Except String α) (actionName : String)
    (retryCount : Nat) : Except String α × Nat × Nat :=
  runAttempts actionFn actionName 0 retryCount

/-- Helper for the retry claims: if the action fails on the `k` attempts
starting at index `a` and succeeds on attempt `a + k`, and at least `k`
retries remain, the loop returns that success after exactly `k + 1`
invocations, having waited the backoff delays of the failed attempts. -/
theorem runAttempts_ok_after_failures {α : Type} (actionFn : Nat → Except String α)
    (actionName : String) (v : α) :
    ∀ (k a left : Nat), k ≤ left →
      (∀ i, i < k → ∃ e, actionFn (a + i) = .error e) →
      actionFn (a + k) = .ok v →
      runAttempts actionFn actionName a left = (.ok v, k + 1, totalBackoff a k) := by
  intro k
  induction k with
  | zero =>
    intro a left _ _ hok
    have hok' : actionFn a = .ok v := hok
    cases left <;> simp [runAttempts, hok', totalBackoff]
  | succ k ih =>
    intro a left hk hfail hok
    obtain ⟨e0, he0⟩ := hfail 0 (Nat.succ_pos k)
    have he0' : actionFn a = .error e0 := he0
    cases left with
    | zero => exact absurd hk (by omega)
    | succ left2 =>
      have hfail2 : ∀ i, i < k → ∃ e, actionFn (a + 1 + i) = .error e := by
        intro i hi
        have h := hfail (i + 1) (by omega)
        have harith : a + (i + 1) = a + 1 + i := by omega
        rw [harith] at h
        exact h
      have hok2 : actionFn (a + 1 + k) = .ok v := by
        have harith : a + 1 + k = a + (k + 1) := by omega
        rw [harith]
        exact hok
      have hrec := ih (a + 1) left2 (by omega) hfail2 hok2
      simp only [runAttempts, he0', hrec, totalBackoff, Prod.mk.injEq]
      exact ⟨trivial, trivial, by omega⟩

/-- C4: for every action that fails exactly `k` times and then succeeds,
and every retry budget of at least `k`, `withRetry` returns the success
value and the action is invoked exactly `k + 1` times. -/
theorem withRetry_eventual_success {α : Type} (actionFn : Nat → Except String α)
    (actionName : String) (k maxAttempts : Nat) (v : α)
    (hk : k ≤ maxAttempts)
    (hfail : ∀ i, i < k → ∃ e, actionFn i = .error e)
    (hok : actionFn k = .ok v) :
    (withRetry actionFn actionName maxAttempts).1 = .ok v ∧
    (withRetry actionFn actionName maxAttempts).2.1 = k + 1 := by
  have hfail0 : ∀ i, i < k → ∃ e, actionFn (0 + i) = .error e := by
    intro i hi
    simpa using hfail i hi
  have hok0 : actionFn (0 + k) = .ok v := by simpa using hok
  have h := runAttempts_ok_after_failures actionFn actionName v k 0 maxAttempts hk hfail0 hok0
  unfold withRetry
  rw [h]
  exact ⟨rfl, rfl⟩

/-- Witness for C4 at a concrete input: an action that fails once and
then returns `7`, run with a budget of one retry. -/
theorem withRetry_eventual_success_witness :
    ((withRetry (fun i => if i = 0 then Except.error "boom" else Except.ok 7) "nav" 1).1
        = Except.ok 7) ∧
    ((withRetry (fun i => if i = 0 then Except.error "boom" else Except.ok 7) "nav" 1).2.1
        = 1 + 1) := by
  refine withRetry_eventual_success (α := Nat)
    (fun i => if i = 0 then Except.error "boom" else Except.ok 7) "nav" 1 1 7
    (le_refl 1) ?_ rfl
  intro i hi
  match i, hi with
  | 0, _ => exact ⟨"boom", rfl⟩

/-- Helper for the always-failing retry claim: if every attempt fails
with message `e i`, running with `left` remaining attempts from attempt
`a` makes `left + 1` invocations, waits the backoff delays of all but
the last attempt, and fails with the aggregate message of line 32. -/
theorem runAttempts_all_fail {α : Type} (actionFn : Nat → Except String α)
    (actionName : String) (e : Nat → String)
    (he : ∀ i, actionFn i = .error (e i)) :
    ∀ (left a : Nat), runAttempts actionFn actionName a left =
      (.error ("All " ++ toString (a + left + 1) ++ " attempts failed for "
          ++ actionName ++ ": " ++ e (a + left)),
        left + 1, totalBackoff a left) := by
  intro left
  induction left with
  | zero =>
    intro a
    simp [runAttempts, he a, totalBackoff]
  | succ left2 ih =>
    intro a
    have hrec := ih (a + 1)
    have harith : a + 1 + left2 = a + (left2 + 1) := by omega
    rw [harith] at hrec
    simp only [runAttempts, he a, hrec, totalBackoff, Prod.mk.injEq]
    exact ⟨trivial, trivial, by omega⟩

/-- Backoff totals agree with the closed-form finite sum over the
attempt indices. -/
theorem totalBackoff_eq_sum : ∀ (k a : Nat),
    totalBackoff a k = ∑ i in Finset.range k, backoffDelay (a + i) := by
  intro k
  induction k with
  | zero => intro a; simp [totalBackoff]
  | succ k ih =>
    intro a
    rw [Finset.sum_range_succ' (fun i => backoffDelay (a + i)) k]
    simp only [totalBackoff, ih (a + 1), Nat.add_zero]
    have harith : ∀ i : Nat, a + 1 + i = a + (i + 1) := by intro i; omega
    rw [Finset.sum_congr rfl (fun i _ => by rw [harith i])]
    omega

/-- C5: for every action that always fails and retry budget `m`,
`withRetry` invokes the action exactly `m + 1` times, waits the capped
exponential backoff delay after every failed attempt except the last
(the total waiting equals the sum of the delays for attempts
`0 .. m-1`), and fails with the aggregate error naming the label and the
last underlying error message. -/
theorem withRetry_always_fails {α : Type} (actionFn : Nat → Except String α)
    (actionName : String) (m : Nat) (e : Nat → String)
    (he : ∀ i, actionFn i = .error (e i)) :
    withRetry actionFn actionName m =
      (.error ("All " ++ toString (m + 1) ++ " attempts failed for "
          ++ actionName ++ ": " ++ e m),
        m + 1, ∑ i in Finset.range m, backoffDelay i) := by
  have h := runAttempts_all_fail actionFn actionName e he m 0
  have hsum := totalBackoff_eq_sum m 0
  simp only [Nat.zero_add] at h hsum
  unfold withRetry
  rw [h, hsum]

/-- Witness for C5 at a concrete input: an action that always fails with
message `x`, run with retry budget 1: two invocations, 1000 ms waited,
aggregate error naming the label and the last message. -/
theorem withRetry_always_fails_witness :
    withRetry (fun _ => (Except.error "x" : Except String Nat)) "dl" 1 =
      (Except.error ("All " ++ toString (1 + 1) ++ " attempts failed for dl: x"),
        1 + 1, ∑ i in Finset.range 1, backoffDelay i) := by
  exact withRetry_always_fails (fun _ => (Except.error "x" : Except String Nat))
    "dl" 1 (fun _ => "x") (fun _ => rfl)

/-- HTTP response seen by one download attempt: the status code and the
concatenation of all body chunks (lines 42-52), as a list of bytes. -/
structure HttpResponse where
  statusCode : Nat
  body : List Nat
deriving DecidableEq

/-- Source line 38: the characters replaced by the sanitizing regex
`/[\/\\\:\*\?\"\<\>\|]/g`. -/
def forbiddenFileChars : List Char := ['/', '\\', ':', '*', '?', '\"', '<', '>', '|']

/-- Source line 38: `title.replace(/[\/\\\:\*\?\"\<\>\|]/g, a underscore)`:
every forbidden character of the title is replaced by an underscore. -/
def sanitizeTitle (title : String) : String :=
  String.mk (title.data.map (fun c => if forbiddenFileChars.contains c then '_' else c))

/-- Source line 39: `path.join(downloads, sanitizedTitle + .pdf)` on a
POSIX filesystem. -/
def pdfFilePath (title : String) : String :=
  "downloads/" ++ sanitizeTitle title ++ ".pdf"

/-- Source line 219: the name passed to `downloadPdf` is
`productName + dash + productVersion + dash + book.title`. -/
def downloadTitleOf (productName productVersion bookTitle : String) : String :=
  productName ++ "-" ++ productVersion ++ "-" ++ bookTitle

/-- Source lines 36-72, `downloadPdf(url, title)`, as a pure function of
the HTTP response: a non-200 status rejects with the status error
(line 44); an empty buffered body rejects with the empty error
(line 54); otherwise the file path and the written bytes are produced
(lines 62-64).  The `fs.writeFile` error branch of line 66 is not
modelled (the modelled filesystem write always succeeds). -/
def downloadPdf (url title : String) (res : HttpResponse) :
    Except String (String × List Nat) :=
  if res.statusCode ≠ 200 then
    .error ("Failed to download PDF. Status code: " ++ toString res.statusCode
      ++ " for " ++ url)
  else if res.body.length = 0 then
    .error ("Downloaded PDF for " ++ title ++ " is empty.")
  else
    .ok (pdfFilePath title, res.body)

/-- Filesystem model: an association list from paths to byte contents; a
later write shadows an earlier one on lookup. -/
abbrev FileSystem := List (String × List Nat)

/-- Writing a file (source line 62). -/
def fsWrite (fs : FileSystem) (p : String) (content : List Nat) : FileSystem :=
  (p, content) :: fs

/-- Reading a file back: the most recent write to the path wins. -/
def fsLookup : FileSystem → String → Option (List Nat)
  | [], _ => none
  | (q, c) :: rest, p => if q = p then some c else fsLookup rest p

/-- Source lines 36-72 again, with the filesystem made explicit: the
file is written only on the success path; both error paths leave the
filesystem untouched. -/
def downloadPdfFS (fs : FileSystem) (url title : String) (res : HttpResponse) :
    Except String String × FileSystem :=
  match downloadPdf url title res with
  | .ok (p, content) => (.ok p, fsWrite fs p content)
  | .error e => (.error e, fs)

/-- C6: a non-200 status fails with the status error and writes no file;
a 200 status with an empty buffered body fails with the empty-content
error and writes no file; a file is written only on the success path
(and then the written body is the non-empty response body at the
sanitized path). -/
theorem downloadPdf_fs_behavior (fs : FileSystem) (url title : String)
    (res : HttpResponse) :
    (res.statusCode ≠ 200 →
      (downloadPdfFS fs url title res).1 =
        .error ("Failed to download PDF. Status code: " ++ toString res.statusCode
          ++ " for " ++ url) ∧
      (downloadPdfFS fs url title res).2 = fs) ∧
    (res.statusCode = 200 → res.body = [] →
      (downloadPdfFS fs url title res).1 =
        .error ("Downloaded PDF for " ++ title ++ " is empty.") ∧
      (downloadPdfFS fs url title res).2 = fs) ∧
    (∀ p, (downloadPdfFS fs url title res).1 = .ok p →
      res.statusCode = 200 ∧ res.body ≠ [] ∧ p = pdfFilePath title ∧
      (downloadPdfFS fs url title res).2 = fsWrite fs p res.body) := by
  refine ⟨?_, ?_, ?_⟩
  · intro hstat
    simp [downloadPdfFS, downloadPdf, hstat]
  · intro hstat hbody
    simp [downloadPdfFS, downloadPdf, hstat, hbody]
  · intro p hok
    by_cases hstat : res.statusCode = 200
    · by_cases hbody : res.body = []
      · simp [downloadPdfFS, downloadPdf, hstat, hbody] at hok
      · have hlen : ¬ res.body.length = 0 := by
          intro h
          exact hbody (List.eq_nil_of_length_eq_zero h)
        simp only [downloadPdfFS, downloadPdf, hstat, hlen] at hok ⊢
        simp at hok
        subst hok
        simp [hbody]
    · simp [downloadPdfFS, downloadPdf, hstat] at hok

/-- Witness for C6 at concrete inputs: a 404 response and a 200 response
with an empty body both fail without writing; a 200 response with one
byte succeeds and writes exactly that file. -/
theorem downloadPdf_fs_behavior_witness :
    ((downloadPdfFS [] "u" "t" ⟨404, [1]⟩).1 =
      .error ("Failed to download PDF. Status code: " ++ toString (404 : Nat)
        ++ " for " ++ "u") ∧
     (downloadPdfFS [] "u" "t" ⟨404, [1]⟩).2 = []) ∧
    ((downloadPdfFS [] "u" "t" ⟨200, []⟩).1 =
      .error ("Downloaded PDF for " ++ "t" ++ " is empty.") ∧
     (downloadPdfFS [] "u" "t" ⟨200, []⟩).2 = []) ∧
    ((downloadPdfFS [] "u" "t" ⟨200, [5]⟩).2 =
      fsWrite [] (pdfFilePath "t") [5]) := by
  refine ⟨(downloadPdf_fs_behavior [] "u" "t" ⟨404, [1]⟩).1 (by decide),
    (downloadPdf_fs_behavior [] "u" "t" ⟨200, []⟩).2.1 rfl rfl, ?_⟩
  have h := (downloadPdf_fs_behavior [] "u" "t" ⟨200, [5]⟩).2.2 (pdfFilePath "t") rfl
  exact h.2.2.2

/-- C7: for book title `A/B:C*D`, product name `p` and version `v`, the
download name is `p-v-A/B:C*D`, the written file is exactly
`downloads/p-v-A_B_C_D.pdf`, and a successful download returns that
path; every character of the forbidden set is replaced by an
underscore. -/
theorem sanitize_filename_exact :
    pdfFilePath (downloadTitleOf "p" "v" "A/B:C*D") = "downloads/p-v-A_B_C_D.pdf" ∧
    sanitizeTitle "a/b\\c:d*e?f\"g<h>i|j" = "a_b_c_d_e_f_g_h_i_j" ∧
    (downloadPdfFS [] "u" (downloadTitleOf "p" "v" "A/B:C*D") ⟨200, [3]⟩).1 =
      .ok "downloads/p-v-A_B_C_D.pdf" := by
  refine ⟨rfl, rfl, rfl⟩

/-- Source lines 115-124: one discovered book tile, a title and a link
(the in-page evaluation names the link field `url`). -/
structure BookEntry where
  title : String
  url : String
deriving DecidableEq

/-- Source lines 224 and 242: one entry of `downloadResults`.  The
success push of line 224 omits the `error` and `criticalError` keys;
the absent JavaScript fields are modelled as `none` and `false`, which
matches how the summary loop of lines 270-280 reads them. -/
structure BookResult where
  title : String
  url : String
  pdfUrl : Option String
  downloadPath : Option String
  success : Bool
  error : Option String
  criticalError : Bool
deriving DecidableEq

/-- Source line 228: the fixed list of critical-failure substrings. -/
def criticalErrorPatterns : List String :=
  ["Object with guid", "not bound in the connection", "has been closed",
    "Target closed", "Navigation failed", "context has been destroyed"]

/-- Boolean test that `needle` starts `hay`, character by character. -/
def startsWithChars : List Char → List Char → Bool
  | _, [] => true
  | [], _ :: _ => false
  | c :: cs, d :: ds => c == d && startsWithChars cs ds

/-- Boolean substring test, the model of JavaScript
`haystack.includes(needle)`. -/
def includesSub : List Char → List Char → Bool
  | [], needle => needle.isEmpty
  | c :: cs, needle => startsWithChars (c :: cs) needle || includesSub cs needle

/-- Source line 229:
`criticalErrorPatterns.some(pattern => error.message.includes(pattern))`. -/
def isCriticalErrorMessage (message : String) : Bool :=
  criticalErrorPatterns.any (fun p => includesSub message.data p.data)

/-- Error message raised when iteration reaches `context.newPage()`
(line 139) after a critical failure has set `context = null` (line 240):
the engine throws a `TypeError` with this text. -/
def nullContextMessage : String :=
  "Cannot read properties of null (reading \x27newPage\x27)"

/-- Abstraction of what one iteration of the book loop encounters when
the session is still alive: either some step before the download throws
with a message (navigation at lines 141-144, PDF location at lines
146-211, all already wrapped by their own `withRetry` labels), or a PDF
URL is located and the download runs against the HTTP responses seen by
the successive download attempts. -/
inductive BookBehavior where
  | throwAt (message : String)
  | download (pdfUrl : String) (responses : Nat → HttpResponse)

/-- Source lines 226-242, the catch block for one book: the result
pushed records the book fields, null `pdfUrl` and `downloadPath`, the
error message and its critical classification; the browser survives
exactly when it was alive and the error is not critical (lines 230-241
tear the browser and context down to null on a critical error). -/
def bookFailure (b : BookEntry) (message : String) (aliveNow : Bool)
    (fs : FileSystem) : BookResult × Bool × FileSystem :=
  let isCrit := isCriticalErrorMessage message
  ({ title := b.title, url := b.url, pdfUrl := none, downloadPath := none,
      success := false, error := some message, criticalError := isCrit },
    aliveNow && !isCrit, fs)

/-- Source lines 128-250, one iteration of the loop over books, given
whether the browser/context pair is still non-null (`alive`).  With a
dead session, `context.newPage()` at line 139 throws immediately and the
catch block records a non-critical failure.  With a live session the
behaviour either throws before the download or reaches the common
download logic of lines 213-224, where `downloadPdf` runs under
`withRetry` (line 220-223, label `downloading PDF for` the title) and a
success pushes the result of line 224 and leaves the session alive. -/
def processBook (productName productVersion : String) (b : BookEntry)
    (beh : BookBehavior) (alive : Bool) (fs : FileSystem) :
    BookResult × Bool × FileSystem :=
  match alive, beh with
  | false, _ => bookFailure b nullContextMessage false fs
  | true, .throwAt message => bookFailure b message true fs
  | true, .download pdfUrl responses =>
    match (withRetry (fun i => downloadPdf pdfUrl
        (downloadTitleOf productName productVersion b.title) (responses i))
        ("downloading PDF for " ++ b.title) MAX_RETRIES).1 with
    | .ok (p, content) =>
      ({ title := b.title, url := b.url, pdfUrl := some pdfUrl,
          downloadPath := some p, success := true, error := none,
          criticalError := false }, true, fsWrite fs p content)
    | .error message => bookFailure b message true fs

/-- Source lines 127-255: the loop over all discovered books, threading
the session-alive flag and the filesystem, and appending one result per
book to `downloadResults` in discovery order. -/
def runBooks (productName productVersion : String) :
    List (BookEntry × BookBehavior) → Bool → FileSystem →
    List BookResult × Bool × FileSystem
  | [], alive, fs => ([], alive, fs)
  | (b, beh) :: rest, alive, fs =>
    let step := processBook productName productVersion b beh alive fs
    let restOut := runBooks productName productVersion rest step.2.1 step.2.2
    (step.1 :: restOut.1, restOut.2)

/-- Source lines 84-88: the launch options handed to the browser:
`headless` mirrors the flag, and `slowMo = 1000` is set exactly when the
run is not headless. -/
structure LaunchOptions where
  headless : Bool
  slowMo : Option Nat
deriving DecidableEq

/-- Source lines 84-88: `launchOptions` construction. -/
def makeLaunchOptions (runHeadless : Bool) : LaunchOptions :=
  { headless := runHeadless,
    slowMo := if runHeadless then none else some 1000 }

/-- Every run produced by `runAttempts` that ends in a success obtained
that success from some invocation of the action. -/
theorem runAttempts_ok_exists {α : Type} (actionFn : Nat → Except String α)
    (actionName : String) (v : α) :
    ∀ (left a : Nat), (runAttempts actionFn actionName a left).1 = .ok v →
      ∃ i, actionFn i = .ok v := by
  intro left
  induction left with
  | zero =>
    intro a h
    cases hact : actionFn a with
    | ok w =>
      simp only [runAttempts, hact] at h
      exact ⟨a, by rw [hact]; exact h⟩
    | error e => simp [runAttempts, hact] at h
  | succ left2 ih =>
    intro a h
    cases hact : actionFn a with
    | ok w =>
      simp only [runAttempts, hact] at h
      exact ⟨a, by rw [hact]; exact h⟩
    | error e =>
      simp only [runAttempts, hact] at h
      exact ih (a + 1) h

/-- A successful `downloadPdf` names the sanitized path and returns the
response body, which the emptiness guard has checked to be non-empty. -/
theorem downloadPdf_ok_shape (url title : String) (res : HttpResponse)
    (p : String) (c : List Nat) (h : downloadPdf url title res = .ok (p, c)) :
    p = pdfFilePath title ∧ c = res.body ∧ res.body ≠ [] := by
  by_cases hstat : res.statusCode = 200
  · by_cases hlen : res.body.length = 0
    · simp [downloadPdf, hstat, hlen] at h
    · have hne : res.body ≠ [] := by
        intro hnil
        rw [hnil] at hlen
        exact hlen rfl
      simp [downloadPdf, hstat, hlen] at h
      exact ⟨h.1.symm, h.2.symm, hne⟩
  · simp [downloadPdf, hstat] at h

/-- Outcome shape of one loop iteration: either the iteration records a
failure (null fields, the caught message and its critical
classification, the session surviving exactly when it was alive and the
failure is not critical, filesystem untouched), or it records a success
(a located URL, a written non-empty file, session still alive). -/
theorem processBook_shape (pn pv : String) (b : BookEntry) (beh : BookBehavior)
    (alive : Bool) (fs : FileSystem) :
    (∃ message, processBook pn pv b beh alive fs =
      ({ title := b.title, url := b.url, pdfUrl := none, downloadPath := none,
          success := false, error := some message,
          criticalError := isCriticalErrorMessage message },
        alive && !(isCriticalErrorMessage message), fs)) ∨
    (∃ u p c, c ≠ [] ∧ processBook pn pv b beh alive fs =
      ({ title := b.title, url := b.url, pdfUrl := some u, downloadPath := some p,
          success := true, error := none, criticalError := false }, true,
        fsWrite fs p c)) := by
  cases alive with
  | false => exact Or.inl ⟨nullContextMessage, rfl⟩
  | true =>
    cases beh with
    | throwAt message => exact Or.inl ⟨message, rfl⟩
    | download pdfUrl responses =>
      cases hw : (withRetry (fun i => downloadPdf pdfUrl
          (downloadTitleOf pn pv b.title) (responses i))
          ("downloading PDF for " ++ b.title) MAX_RETRIES).1 with
      | ok pc =>
        obtain ⟨p, content⟩ := pc
        obtain ⟨i, hi⟩ := runAttempts_ok_exists (fun i => downloadPdf pdfUrl
          (downloadTitleOf pn pv b.title) (responses i))
          ("downloading PDF for " ++ b.title) (p, content) MAX_RETRIES 0 hw
        obtain ⟨hp, hcont, hne⟩ := downloadPdf_ok_shape pdfUrl
          (downloadTitleOf pn pv b.title) (responses i) p content hi
        right
        refine ⟨pdfUrl, p, content, hcont ▸ hne, ?_⟩
        simp only [processBook]
        rw [hw]
      | error message =>
        left
        refine ⟨message, ?_⟩
        simp only [processBook]
        rw [hw]
        rfl

/-- C1: the result ledger holds exactly one entry per discovered book,
in discovery order (the mapped title/url pairs coincide), regardless of
per-book success, failure or critical failure. -/
theorem ledger_one_result_per_book (pn pv : String)
    (items : List (BookEntry × BookBehavior)) (alive : Bool) (fs : FileSystem) :
    (runBooks pn pv items alive fs).1.length = items.length ∧
    (runBooks pn pv items alive fs).1.map (fun r => (r.title, r.url)) =
      items.map (fun it => (it.1.title, it.1.url)) := by
  induction items generalizing alive fs with
  | nil => exact ⟨rfl, rfl⟩
  | cons hd tl ih =>
    obtain ⟨b, beh⟩ := hd
    obtain ⟨hlen, hmap⟩ := ih ((processBook pn pv b beh alive fs).2.1)
      ((processBook pn pv b beh alive fs).2.2)
    rcases processBook_shape pn pv b beh alive fs with
      ⟨message, hstep⟩ | ⟨u, p, c, hc, hstep⟩ <;>
      simp_all [runBooks, hstep]

/-- Filesystem predicate used for the success invariant: every stored
file has non-empty content. -/
def fsAllNonEmpty (fs : FileSystem) : Prop :=
  ∀ p c, fsLookup fs p = some c → c ≠ []

/-- Empty filesystem trivially has only non-empty files. -/
theorem fsAllNonEmpty_nil : fsAllNonEmpty [] := by
  intro p c h
  simp [fsLookup] at h

/-- A write is immediately readable. -/
theorem fsLookup_write_self (fs : FileSystem) (p : String) (c : List Nat) :
    fsLookup (fsWrite fs p c) p = some c := by
  simp [fsWrite, fsLookup]

/-- A write never removes an existing file. -/
theorem fsLookup_write_isSome (fs : FileSystem) (p q : String) (c : List Nat)
    (h : (fsLookup fs q).isSome) : (fsLookup (fsWrite fs p c) q).isSome := by
  by_cases hpq : p = q <;> simp [fsWrite, fsLookup, hpq, h]

/-- Writing non-empty content preserves the all-non-empty predicate. -/
theorem fsAllNonEmpty_write (fs : FileSystem) (p : String) (c : List Nat)
    (hfs : fsAllNonEmpty fs) (hc : c ≠ []) : fsAllNonEmpty (fsWrite fs p c) := by
  intro q d hd
  by_cases hpq : p = q
  · simp only [fsWrite, fsLookup, if_pos hpq] at hd
    cases hd
    exact hc
  · simp only [fsWrite, fsLookup, if_neg hpq] at hd
    exact hfs q d hd

/-- Backbone invariant for the success claim: starting from a
filesystem whose files are all non-empty, the run keeps that property,
never deletes a file, and every ledger entry satisfies the
success/fields equivalence. -/
theorem runBooks_inv (pn pv : String) :
    ∀ (items : List (BookEntry × BookBehavior)) (alive : Bool) (fs : FileSystem),
      fsAllNonEmpty fs →
      fsAllNonEmpty (runBooks pn pv items alive fs).2.2 ∧
      (∀ p, (fsLookup fs p).isSome →
        (fsLookup (runBooks pn pv items alive fs).2.2 p).isSome) ∧
      (∀ r ∈ (runBooks pn pv items alive fs).1,
        (r.success = true ↔ r.pdfUrl ≠ none ∧ ∃ p c, r.downloadPath = some p ∧
          fsLookup (runBooks pn pv items alive fs).2.2 p = some c ∧ c ≠ []) ∧
        (r.success = false → r.downloadPath = none ∧ r.pdfUrl = none)) := by
  intro items
  induction items with
  | nil =>
    intro alive fs hfs
    refine ⟨hfs, fun p h => h, ?_⟩
    intro r hr
    simp [runBooks] at hr
  | cons hd tl ih =>
    obtain ⟨b, beh⟩ := hd
    intro alive fs hfs
    rcases processBook_shape pn pv b beh alive fs with
      ⟨message, hstep⟩ | ⟨u, p, c, hc, hstep⟩
    · have hrun : runBooks pn pv ((b, beh) :: tl) alive fs =
          (({ title := b.title, url := b.url, pdfUrl := none, downloadPath := none,
              success := false, error := some message,
              criticalError := isCriticalErrorMessage message } : BookResult) ::
            (runBooks pn pv tl (alive && !(isCriticalErrorMessage message)) fs).1,
            (runBooks pn pv tl (alive && !(isCriticalErrorMessage message)) fs).2) := by
        simp only [runBooks, hstep]
      obtain ⟨h1, h2, h3⟩ := ih (alive && !(isCriticalErrorMessage message)) fs hfs
      rw [hrun]
      refine ⟨h1, h2, ?_⟩
      intro r hr
      rcases List.mem_cons.mp hr with hr0 | hrtl
      · subst hr0
        refine ⟨⟨fun hs => by simp at hs, ?_⟩, fun _ => ⟨rfl, rfl⟩⟩
        rintro ⟨hpu, -⟩
        exact absurd rfl hpu
      · exact h3 r hrtl
    · have hrun : runBooks pn pv ((b, beh) :: tl) alive fs =
          (({ title := b.title, url := b.url, pdfUrl := some u,
              downloadPath := some p, success := true, error := none,
              criticalError := false } : BookResult) ::
            (runBooks pn pv tl true (fsWrite fs p c)).1,
            (runBooks pn pv tl true (fsWrite fs p c)).2) := by
        simp only [runBooks, hstep]
      have hfs2 : fsAllNonEmpty (fsWrite fs p c) := fsAllNonEmpty_write fs p c hfs hc
      obtain ⟨h1, h2, h3⟩ := ih true (fsWrite fs p c) hfs2
      rw [hrun]
      refine ⟨h1, ?_, ?_⟩
      · intro q hq
        exact h2 q (fsLookup_write_isSome fs p q c hq)
      · intro r hr
        rcases List.mem_cons.mp hr with hr0 | hrtl
        · subst hr0
          refine ⟨⟨fun _ => ?_, fun _ => rfl⟩, fun hs => by simp at hs⟩
          have hsome : (fsLookup (runBooks pn pv tl true (fsWrite fs p c)).2.2 p).isSome :=
            h2 p (by rw [fsLookup_write_self]; rfl)
          obtain ⟨d, hd⟩ := Option.isSome_iff_exists.mp hsome
          exact ⟨by simp, p, d, rfl, hd, h1 p d hd⟩
        · exact h3 r hrtl

/-- C2: every ledger entry of a run that starts with an empty downloads
store is successful exactly when its PDF URL and download path are
non-null and the file recorded at that path is non-empty at the end of
the run; a failed entry has a null download path. -/
theorem ledger_success_iff (pn pv : String)
    (items : List (BookEntry × BookBehavior)) (r : BookResult)
    (hr : r ∈ (runBooks pn pv items true []).1) :
    (r.success = true ↔ r.pdfUrl ≠ none ∧ ∃ p c, r.downloadPath = some p ∧
      fsLookup (runBooks pn pv items true []).2.2 p = some c ∧ c ≠ []) ∧
    (r.success = false → r.downloadPath = none) := by
  obtain ⟨h1, h2, h3⟩ := runBooks_inv pn pv items true [] fsAllNonEmpty_nil
  exact ⟨(h3 r hr).1, fun hs => ((h3 r hr).2 hs).1⟩

/-- Concrete one-book run used by the success-invariant witness. -/
def c2Items : List (BookEntry × BookBehavior) :=
  [(⟨"t", "u"⟩, .download "U" (fun _ => ⟨200, [7]⟩))]

/-- Ledger entry produced by `c2Items`. -/
def c2Result : BookResult :=
  { title := "t", url := "u", pdfUrl := some "U",
    downloadPath := some "downloads/p-v-t.pdf", success := true,
    error := none, criticalError := false }

/-- Witness for C2 at a concrete input: the single successful book of
`c2Items`. -/
theorem ledger_success_iff_witness :
    (c2Result.success = true ↔ c2Result.pdfUrl ≠ none ∧ ∃ p c,
      c2Result.downloadPath = some p ∧
      fsLookup (runBooks "p" "v" c2Items true []).2.2 p = some c ∧ c ≠ []) ∧
    (c2Result.success = false → c2Result.downloadPath = none) :=
  ledger_success_iff "p" "v" c2Items c2Result (by decide)

/-- Result recorded for a book processed after the session has been
torn down: `context.newPage()` throws on the null context, and the
catch block records a non-critical failure. -/
def deadResult (b : BookEntry) : BookResult :=
  { title := b.title, url := b.url, pdfUrl := none, downloadPath := none,
    success := false, error := some nullContextMessage,
    criticalError := isCriticalErrorMessage nullContextMessage }

/-- Once the session is dead, every remaining book fails with the
null-context error and the session is never relaunched. -/
theorem runBooks_dead (pn pv : String) :
    ∀ (items : List (BookEntry × BookBehavior)) (fs : FileSystem),
      runBooks pn pv items false fs =
        (items.map (fun it => deadResult it.1), false, fs) := by
  intro items
  induction items with
  | nil => intro fs; rfl
  | cons hd tl ih =>
    intro fs
    obtain ⟨b, beh⟩ := hd
    have hstep : processBook pn pv b beh false fs = (deadResult b, false, fs) := rfl
    simp only [runBooks, hstep, List.map_cons]
    rw [ih fs]

/-- A recorded critical failure implies the session is dead after that
iteration. -/
theorem processBook_crit_kills (pn pv : String) (b : BookEntry)
    (beh : BookBehavior) (alive : Bool) (fs : FileSystem)
    (h : (processBook pn pv b beh alive fs).1.criticalError = true) :
    (processBook pn pv b beh alive fs).2.1 = false := by
  rcases processBook_shape pn pv b beh alive fs with
    ⟨message, hstep⟩ | ⟨u, p, c, hc, hstep⟩
  · rw [hstep] at h ⊢
    simp only at h
    simp [h]
  · rw [hstep] at h
    simp at h

/-- Helper for the poisoned-session claim, generalized over the
starting session state. -/
theorem runBooks_crit_aux (pn pv : String) :
    ∀ (items : List (BookEntry × BookBehavior)) (alive : Bool) (fs : FileSystem)
      (pre : List BookResult) (r : BookResult) (post : List BookResult),
      (runBooks pn pv items alive fs).1 = pre ++ r :: post →
      r.criticalError = true →
      (∀ x ∈ post, x.success = false ∧ x.error = some nullContextMessage) ∧
      (runBooks pn pv items alive fs).2.1 = false := by
  intro items
  induction items with
  | nil =>
    intro alive fs pre r post hsplit hcrit
    exact absurd hsplit (by simp [runBooks])
  | cons hd tl ih =>
    intro alive fs pre r post hsplit hcrit
    obtain ⟨b, beh⟩ := hd
    simp only [runBooks] at hsplit ⊢
    cases pre with
    | nil =>
      rw [List.nil_append] at hsplit
      injection hsplit with h1 h2
      have hcrit1 : (processBook pn pv b beh alive fs).1.criticalError = true := by
        rw [h1]; exact hcrit
      have hkill := processBook_crit_kills pn pv b beh alive fs hcrit1
      rw [hkill] at h2 ⊢
      rw [runBooks_dead pn pv tl ((processBook pn pv b beh alive fs).2.2)] at h2 ⊢
      constructor
      · intro x hx
        rw [← h2] at hx
        obtain ⟨it, _, hit⟩ := List.mem_map.mp hx
        rw [← hit]
        exact ⟨rfl, rfl⟩
      · rfl
    | cons p0 pre2 =>
      rw [List.cons_append] at hsplit
      injection hsplit with h1 h2
      exact ih ((processBook pn pv b beh alive fs).2.1)
        ((processBook pn pv b beh alive fs).2.2) pre2 r post h2 hcrit

/-- C10: in any run that starts with a live session, once some ledger
entry records a critical failure, every later entry fails with the
null-context error (its page-open attempt errors on the null context),
each such book still gets a `success = false` result, and the run ends
with the session still dead: no new browser session is ever launched. -/
theorem critical_failure_poisons_rest (pn pv : String)
    (items : List (BookEntry × BookBehavior)) (fs : FileSystem)
    (pre : List BookResult) (r : BookResult) (post : List BookResult)
    (hsplit : (runBooks pn pv items true fs).1 = pre ++ r :: post)
    (hcrit : r.criticalError = true) :
    (∀ x ∈ post, x.success = false ∧ x.error = some nullContextMessage) ∧
    (runBooks pn pv items true fs).2.1 = false :=
  runBooks_crit_aux pn pv items true fs pre r post hsplit hcrit

/-- Concrete two-book run used by the poisoned-session witness: the
first book hits a critical error, the second would succeed if the
session were usable. -/
def c10Items : List (BookEntry × BookBehavior) :=
  [(⟨"b1", "u1"⟩, .throwAt "Page has been closed"),
    (⟨"b2", "u2"⟩, .download "U" (fun _ => ⟨200, [1]⟩))]

/-- First ledger entry of the `c10Items` run. -/
def c10FirstResult : BookResult :=
  { title := "b1", url := "u1", pdfUrl := none, downloadPath := none,
    success := false, error := some "Page has been closed", criticalError := true }

/-- Second ledger entry of the `c10Items` run. -/
def c10SecondResult : BookResult :=
  { title := "b2", url := "u2", pdfUrl := none, downloadPath := none,
    success := false, error := some nullContextMessage, criticalError := false }

/-- Witness for C10 at a concrete input: after the critical failure of
book 1, book 2 fails on the null context and the run ends dead. -/
theorem critical_failure_poisons_rest_witness :
    (c10SecondResult.success = false ∧
      c10SecondResult.error = some nullContextMessage) ∧
    (runBooks "p" "v" c10Items true []).2.1 = false := by
  have h := critical_failure_poisons_rest "p" "v" c10Items [] [] c10FirstResult
    [c10SecondResult] (by decide) (by decide)
  exact ⟨h.1 c10SecondResult (by decide), h.2⟩

/-- Concrete run exhibiting the C3 divergence: a book whose processing
fails with a message containing `Target closed`, followed by a book
that would download fine on a usable session. -/
def c3Items : List (BookEntry × BookBehavior) :=
  [(⟨"Installing", "u1"⟩, .throwAt "Protocol error: Target closed"),
    (⟨"Monitoring", "u2"⟩,
      .download "https://docs.redhat.com/en/documentation/p/1.0/pdf/m.pdf"
        (fun _ => ⟨200, [1]⟩))]

/-- C3, evaluated at the failing input: the `Target closed` failure is
classified critical (`criticalError = true`) and processing continues,
but the session is never made usable again: the next book fails on the
null context instead of being processed on a restarted session, and the
run ends with the session dead. -/
theorem target_closed_no_restart :
    ((runBooks "p" "1.0" c3Items true []).1.map
      (fun r => (r.success, r.criticalError, r.error))) =
      [(false, true, some "Protocol error: Target closed"),
        (false, false, some nullContextMessage)] ∧
    (runBooks "p" "1.0" c3Items true []).2.1 = false := by
  exact ⟨by decide, by decide⟩

/-- Case-insensitive character equality, the model of the regex `i`
flag of source line 153. -/
def ciEq (a b : Char) : Bool := a.toLower == b.toLower

/-- Case-insensitive test that the pattern literal starts the content
(first argument the pattern, second the content). -/
def ciStarts : List Char → List Char → Bool
  | [], _ => true
  | _ :: _, [] => false
  | p :: ps, c :: cs => ciEq p c && ciStarts ps cs

/-- Greedy backtracking step of the regex tail: starting from candidate
length `j` and going downward, find the largest `j ≥ 1` such that a
literal `.pdf` (case-insensitively) follows the first `j` characters of
`cs`. -/
def findLastPdf (cs : List Char) : Nat → Option Nat
  | 0 => none
  | j + 1 =>
    if ciStarts ['.', 'p', 'd', 'f'] (cs.drop (j + 1)) then some (j + 1)
    else findLastPdf cs j

/-- Length consumed at the start of `cs` by the regex tail, one or more
non-quote characters followed by `.pdf`, under greedy matching: the
quantifier backtracks downward from the maximal non-quote run, so the
match ends at the last `.pdf` inside that run. -/
def greedyBody (cs : List Char) : Option Nat :=
  let run := cs.takeWhile (fun c => c != '\"')
  match findLastPdf cs (run.length - 4) with
  | some j => some (j + 4)
  | none => none

/-- Leftmost regex search: at each position of the content, try the
literal pattern followed by the greedy non-quote body ending in `.pdf`,
and return the full matched substring of the content. -/
def scanMatch (pat : List Char) : List Char → Option (List Char)
  | [] => none
  | c :: cs =>
    if ciStarts pat (c :: cs) then
      match greedyBody ((c :: cs).drop pat.length) with
      | some n => some ((c :: cs).take (pat.length + n))
      | none => scanMatch pat cs
    else scanMatch pat cs

/-- Source lines 149-162, the headless DirectPattern extraction: the
page markup is searched case-insensitively for the first substring of
shape `https://docs.redhat.com/en/documentation/` + productName + `/` +
productVersion + `/pdf/` + one or more non-quote characters + `.pdf`.
The regex-escaping of lines 150-151 makes the interpolated product name
and version match literally, which the model realizes by splicing them
into the literal pattern.  A `none` result models the throw of line 161
(`Regex failed to find specific PDF link`). -/
def locateDirectPdf (pageContent productName productVersion : String) :
    Option String :=
  let pat := ("https://docs.redhat.com/en/documentation/" ++ productName ++ "/"
    ++ productVersion ++ "/pdf/").data
  match scanMatch pat pageContent.data with
  | some chars => some (String.mk chars)
  | none => none

/-- Markup carrying the URL of the claim, on the host
`docs.example.com`. -/
def exampleComMarkup : String :=
  "<a href=\"https://docs.example.com/en/documentation/prod/1.0/pdf/guide.pdf\">PDF</a>"

/-- Counterexample to C8 as stated: the code matches only the hardcoded
host `docs.redhat.com`, so on markup containing the claim URL at
`docs.example.com` the locator finds nothing instead of returning that
URL. -/
theorem direct_pattern_example_host_fails :
    locateDirectPdf exampleComMarkup "prod" "1.0" = none ∧
    locateDirectPdf exampleComMarkup "prod" "1.0" ≠
      some "https://docs.example.com/en/documentation/prod/1.0/pdf/guide.pdf" :=
  ⟨by decide, by decide⟩

/-- Markup carrying the corresponding URL on the host the code
hardcodes. -/
def redhatMarkup : String :=
  "<a href=\"https://docs.redhat.com/en/documentation/prod/1.0/pdf/guide.pdf\">PDF</a>"

/-- C8 amended (host corrected to the hardcoded `docs.redhat.com`): on
markup containing a URL of the documented shape for productName `prod`
and productVersion `1.0` the locator returns exactly that URL; on markup
with no matching URL it fails; and because the name and version are
regex-escaped, a regex metacharacter in the product name matches only
itself, not as a wildcard. -/
theorem direct_pattern_found_and_not_found :
    locateDirectPdf redhatMarkup "prod" "1.0" =
      some "https://docs.redhat.com/en/documentation/prod/1.0/pdf/guide.pdf" ∧
    locateDirectPdf "<html><body>no pdf link here</body></html>" "prod" "1.0" = none ∧
    locateDirectPdf
      "<a href=\"https://docs.redhat.com/en/documentation/prodX/1.0/pdf/g.pdf\">x</a>"
      "prod." "1.0" = none :=
  ⟨by decide, by decide, by decide⟩

/-- Counterexample to C9 as stated: in a headless run (headed = false),
no slow-motion delay is applied. -/
theorem slowmo_not_applied_when_headless :
    (makeLaunchOptions true).slowMo = none := rfl

/-- C9 amended: the slow-motion delay of 1000 ms is applied exactly when
the browser is headed (`runHeadless = false`), not when it is headless;
the headless flag mirrors the run mode. -/
theorem slowmo_headed_only :
    (makeLaunchOptions false).headless = false ∧
    (makeLaunchOptions false).slowMo = some 1000 ∧
    (makeLaunchOptions true).headless = true ∧
    (makeLaunchOptions true).slowMo = none :=
  ⟨rfl, rfl, rfl, rfl⟩

end DocsDownloader
